import Mathlib

/-!
Shallow embedding of `src/noteDisplay.js` (the Sequencer repository's note
display component) and verification of its specification.

Modelling conventions:

* JavaScript numbers are modelled as exact rationals `ℚ`.  The spec's
  "Round-trip" property is stated over exact rational/real arithmetic.
* A JavaScript object used as a record of unit values (e.g. the argument of
  `outputValuesFor`) is modelled as an association list `List (String × ℚ)`;
  a JS object's keys are distinct, and object iteration visits each key once,
  so `for (unit in values)` assignments translate to `List.filterMap`.
* A JavaScript `Map` is modelled as an association list together with the
  `mapSet`/`mapLookup` operations, which mirror `Map.set` (replace the entry
  in place when the key is present, append otherwise, preserving insertion
  order) and `Map.get`.
* A property access that can yield JS `undefined` (e.g. `.pitch` on the
  result of a conversion) is modelled as `Option ℚ`, with `none` standing
  for `undefined`; arithmetic on `undefined` (which yields `NaN` in JS) is
  propagated as `none` by `jsSub`/`jsAbs`.
* DOM side effects are modelled only as the data they carry: the surface is
  the list of ids of the blocks appended to it, and block styling is kept as
  the numeric geometry fields of `NoteBlock`.
* The infinite generator `NoteBlock.idGenerator` is embedded as explicit
  state passing of the next id `gen : ℕ`; `NoteBlock.nextId` returns the
  current value and the advanced state.
* The external sequence collaborator is a `getNotes` function; the
  `moveNote` calls made by `dropListener` are returned as a list of
  `MoveNoteCall` values (the observable effect on the collaborator).
-/

/-- Lookup in an association list, mirroring JS `Map.get` / object indexing:
the value at the first matching key, or `none` (JS `undefined`). -/
def mapLookup {α β : Type} [DecidableEq α] (m : List (α × β)) (k : α) : Option β :=
  match m with
  | [] => none
  | (k', v) :: rest => if k = k' then some v else mapLookup rest k

/-- JS `Map.set`: replace the entry in place when the key is present
(keeping insertion order), append a new entry otherwise. -/
def mapSet {α β : Type} [DecidableEq α] (m : List (α × β)) (k : α) (v : β) :
    List (α × β) :=
  if (mapLookup m k).isSome then
    m.map (fun p => if p.1 = k then (k, v) else p)
  else
    m ++ [(k, v)]

/-- Subtraction on possibly-undefined JS numbers: an `undefined` operand
makes the result `NaN`, modelled as `none`. -/
def jsSub (a b : Option ℚ) : Option ℚ :=
  match a, b with
  | some x, some y => some (x - y)
  | _, _ => none

/-- `Math.abs`, propagating `NaN`/`undefined` as `none`. -/
def jsAbs (a : Option ℚ) : Option ℚ :=
  a.map (fun x => |x|)

/-- Modelled from the host platform: the JS `Number(string)` coercion applied
to the drag payload string returned by `getData`.  The empty string (returned
when no payload was set) coerces to `0`; a string of decimal digits coerces to
the natural number it denotes; any other string coerces to `NaN`, modelled as
`none`.  (Signed, fractional and exponent forms never occur as payloads,
since payloads are written from block ids; `48` is the code point of the
digit `0`.) -/
def jsStringToNumber (s : String) : Option ℚ :=
  if s = "" then some 0
  else if s.data.all (fun c => c.isDigit) then
    some ((s.data.foldl (fun n c => 10 * n + (c.toNat - 48)) 0 : ℕ) : ℚ)
  else none

/-- The `{zero, scaling}` configuration of one unit of a `LinearScaler`. -/
structure UnitScaling where
  zero : ℚ
  scaling : ℚ
deriving DecidableEq

/-- `LinearScaler` from `noteDisplay.js`: converts units using linear
relationships; `units` maps each configured unit name to its scaling. -/
structure LinearScaler where
  units : List (String × UnitScaling)
deriving DecidableEq

/-- `LinearScaler.outputValuesFor`: for each input unit that is configured,
`zero + scaling * value`; unconfigured units are silently dropped. -/
def LinearScaler.outputValuesFor (s : LinearScaler)
    (inputValues : List (String × ℚ)) : List (String × ℚ) :=
  inputValues.filterMap (fun p =>
    match mapLookup s.units p.1 with
    | some u => some (p.1, u.zero + u.scaling * p.2)
    | none => none)

/-- `LinearScaler.inputValuesFor`: for each output unit that is configured,
`(value - zero) / scaling`; unconfigured units are silently dropped.
(Division by a zero scaling is undefined behaviour in the source; `ℚ`
division is total but every claim restricts to nonzero scaling.) -/
def LinearScaler.inputValuesFor (s : LinearScaler)
    (outputValues : List (String × ℚ)) : List (String × ℚ) :=
  outputValues.filterMap (fun p =>
    match mapLookup s.units p.1 with
    | some u => some (p.1, (p.2 - u.zero) / u.scaling)
    | none => none)

/-- A note of the external sequence: `start` beat, `length` in beats and
pitch `number`. -/
structure Note where
  start : ℚ
  length : ℚ
  number : ℚ
deriving DecidableEq

/-- `NoteBlock` from `noteDisplay.js`: the id assigned at construction and
the geometry written to the element's style.  A geometry field is `none`
when the source would have written `undefined`/`NaN`. -/
structure NoteBlock where
  id : ℕ
  top : Option ℚ
  left : Option ℚ
  height : Option ℚ
  width : Option ℚ
  unit : String
deriving DecidableEq, Inhabited

/-- The constructor arguments of `NoteBlock`. -/
structure NoteBlockArgs where
  top : Option ℚ
  left : Option ℚ
  height : Option ℚ
  width : Option ℚ
  unit : String
deriving DecidableEq

/-- `NoteBlock.nextId`: draws the next value from the infinite id generator;
the generator state is the counter `gen`. -/
def NoteBlock.nextId (gen : ℕ) : ℕ × ℕ :=
  (gen, gen + 1)

/-- The `NoteBlock` constructor: assigns the next id and records the
geometry; returns the block and the advanced generator state. -/
def NoteBlock.create (args : NoteBlockArgs) (gen : ℕ) : NoteBlock × ℕ :=
  let idAndGen := NoteBlock.nextId gen
  (⟨idAndGen.1, args.top, args.left, args.height, args.width, args.unit⟩,
   idAndGen.2)

/-- Sequential construction of one `NoteBlock` per argument record,
threading the id-generator state. -/
def NoteBlock.createAll (argsList : List NoteBlockArgs) (gen : ℕ) :
    List NoteBlock × ℕ :=
  match argsList with
  | [] => ([], gen)
  | args :: rest =>
    let first := NoteBlock.create args gen
    let others := NoteBlock.createAll rest first.2
    (first.1 :: others.1, others.2)

/-- `NoteBlock.displayOn`: appends the block's element to the surface,
modelled as appending its id to the surface's child list. -/
def NoteBlock.displayOn (b : NoteBlock) (surface : List ℕ) : List ℕ :=
  surface ++ [b.id]

/-- `NoteBlock.dragListener`: stores the block's id (coerced to a string)
into the drag payload under the key `application/note-id`. -/
def NoteBlock.dragListener (b : NoteBlock) : String × String :=
  ("application/note-id", toString b.id)

/-- The external sequence collaborator, reduced to its query interface. -/
structure NoteSequence where
  getNotes : ℚ → ℚ → List Note

/-- One observed `moveNote` call on the sequence collaborator.  `note` is
`none` when the source passes an `undefined` note reference, and `newStart`
is `none` when the `.beat` access would yield `undefined`. -/
structure MoveNoteCall where
  note : Option Note
  newStart : Option ℚ
deriving DecidableEq

/-- A drop event: the string returned by
`dataTransfer.getData('application/note-id')` and the horizontal pixel
coordinate `clientX`. -/
structure DropEvent where
  noteIdData : String
  clientX : ℚ
deriving DecidableEq

/-- The state of a `NoteDisplay`: the sequence collaborator, the (unused)
`xSize`/`ySize` parameters, the `blocks` and `notes` maps keyed by block id,
the hard-coded converter, and the surface's child list. -/
structure NoteDisplay where
  sequence : NoteSequence
  xSize : ℚ
  ySize : ℚ
  blocks : List (ℚ × NoteBlock)
  notes : List (ℚ × Note)
  converter : LinearScaler
  surfaceChildren : List ℕ

/-- The `NoteDisplay` constructor: empty maps, an empty surface, and a
converter hard-coded to beat `zero=40, scaling=40` and pitch
`zero=400, scaling=-20`, regardless of `xSize` and `ySize`. -/
def NoteDisplay.create (noteSequence : NoteSequence) (xSize ySize : ℚ) :
    NoteDisplay :=
  ⟨noteSequence, xSize, ySize, [], [],
   ⟨[("beat", ⟨40, 40⟩), ("pitch", ⟨400, -20⟩)]⟩, []⟩

/-- The body of the `for` loop of `drawNotes` for a single note: convert the
start corner `(note.start, note.number)` and end corner
`(note.start + note.length, note.number + 1)`, build a `NoteBlock` from the
start position and the absolute coordinate differences, record it in both
maps under its id, and display it on the surface. -/
def NoteDisplay.drawNote (d : NoteDisplay) (note : Note) (gen : ℕ) :
    NoteDisplay × ℕ :=
  let startPosition := d.converter.outputValuesFor
    [("beat", note.start), ("pitch", note.number)]
  let endPosition := d.converter.outputValuesFor
    [("beat", note.start + note.length), ("pitch", note.number + 1)]
  let created := NoteBlock.create
    ⟨mapLookup startPosition "pitch",
     mapLookup startPosition "beat",
     jsAbs (jsSub (mapLookup endPosition "pitch")
                  (mapLookup startPosition "pitch")),
     jsAbs (jsSub (mapLookup endPosition "beat")
                  (mapLookup startPosition "beat")),
     "px"⟩ gen
  let block := created.1
  ({ d with
      blocks := mapSet d.blocks (block.id : ℚ) block
      notes := mapSet d.notes (block.id : ℚ) note
      surfaceChildren := block.displayOn d.surfaceChildren },
   created.2)

/-- `drawNotes`: queries the sequence for the notes in the hard-coded beat
window `[0, 8)` and draws each in order. -/
def NoteDisplay.drawNotes (d : NoteDisplay) (gen : ℕ) : NoteDisplay × ℕ :=
  (d.sequence.getNotes 0 8).foldl
    (fun p note => p.1.drawNote note p.2) (d, gen)

/-- `dragOverListener`: the default is prevented (permitting a drop) exactly
when the drag payload advertises the `application/note-id` type. -/
def NoteDisplay.dragOverListener (types : List String) : Bool :=
  types.contains "application/note-id"

/-- `dropListener`: parse the dragged block id from the payload, look the
note up in the `notes` map, convert `clientX` back to a beat through the
converter's inverse, and call `moveNote` on the sequence.  The display state
is returned unchanged (the source mutates neither map here) together with
the list of `moveNote` calls made. -/
def NoteDisplay.dropListener (d : NoteDisplay) (event : DropEvent) :
    NoteDisplay × List MoveNoteCall :=
  let blockId := jsStringToNumber event.noteIdData
  let note :=
    match blockId with
    | some q => mapLookup d.notes q
    | none => none
  (d, [⟨note,
        mapLookup (d.converter.inputValuesFor [("beat", event.clientX)])
          "beat"⟩])

/-! ### Concrete fixtures used to instantiate the verification results -/

/-- A sequence collaborator whose `getNotes` returns a fixed list for every
queried window. -/
def constSequence (ns : List Note) : NoteSequence :=
  ⟨fun _ _ => ns⟩

/-- The note of the spec's geometry example: start 0, length 2, number 60. -/
def noteC1 : Note :=
  ⟨0, 2, 60⟩

/-- The display state after rendering `noteC1` from a fresh display and a
fresh id generator. -/
def displayC1 : NoteDisplay :=
  ((NoteDisplay.create (constSequence [noteC1]) 40 20).drawNotes 0).1

/-- Three notes lying in the beat window `[0, 8)`. -/
def noteA : Note :=
  ⟨0, 1, 60⟩

/-- Second of the three fixture notes. -/
def noteB : Note :=
  ⟨2, 1, 62⟩

/-- Third of the three fixture notes. -/
def noteC : Note :=
  ⟨4, 1, 64⟩

/-- The scaler configuration hard-coded by the `NoteDisplay` constructor. -/
def scalerFixture : LinearScaler :=
  ⟨[("beat", ⟨40, 40⟩), ("pitch", ⟨400, -20⟩)]⟩

/-- A block as rendered for `noteC1`, with id 0. -/
def blockFixture : NoteBlock :=
  ⟨0, some (-800), some 40, some 20, some 80, "px"⟩

/-- A display state that already holds one rendered block under id 0, so
that the effect of a further `drawNotes` call on prior entries is
observable. -/
def displayFixture : NoteDisplay :=
  ⟨constSequence [noteC1], 40, 20, [((0 : ℚ), blockFixture)],
   [((0 : ℚ), noteC1)], scalerFixture, [0]⟩

/-! ### Lemmas about the `Map` model -/

lemma mapLookup_eq_none_of_forall_lt {β : Type} (m : List (ℚ × β)) (k : ℚ)
    (h : ∀ p ∈ m, p.1 < k) : mapLookup m k = none := by
  induction m with
  | nil => rfl
  | cons hd tl ih =>
    obtain ⟨k', v⟩ := hd
    have hk : k' < k := h (k', v) (List.mem_cons_self _ _)
    simp only [mapLookup]
    rw [if_neg (by rintro rfl; exact lt_irrefl _ hk)]
    exact ih (fun p hp => h p (List.mem_cons_of_mem _ hp))

lemma mapSet_eq_append {α β : Type} [DecidableEq α] (m : List (α × β))
    (k : α) (v : β) (h : mapLookup m k = none) :
    mapSet m k v = m ++ [(k, v)] := by
  simp [mapSet, h]

lemma mapLookup_isSome_congr {α β γ : Type} [DecidableEq α]
    (m₁ : List (α × β)) (m₂ : List (α × γ))
    (h : m₁.map Prod.fst = m₂.map Prod.fst) (k : α) :
    (mapLookup m₁ k).isSome = (mapLookup m₂ k).isSome := by
  induction m₁ generalizing m₂ with
  | nil =>
    have : m₂ = [] := by
      cases m₂ with
      | nil => rfl
      | cons hd tl => simp at h
    subst this
    rfl
  | cons hd tl ih =>
    cases m₂ with
    | nil => simp at h
    | cons hd₂ tl₂ =>
      obtain ⟨k₁, v₁⟩ := hd
      obtain ⟨k₂, v₂⟩ := hd₂
      simp only [List.map_cons, List.cons.injEq] at h
      obtain ⟨hk, htl⟩ := h
      subst hk
      simp only [mapLookup]
      by_cases hkk : k = k₁
      · simp [hkk]
      · simp only [if_neg hkk]
        exact ih tl₂ htl

lemma mapSet_map_fst {α β : Type} [DecidableEq α] (m : List (α × β))
    (k : α) (v : β) :
    (mapSet m k v).map Prod.fst =
      if (mapLookup m k).isSome then m.map Prod.fst
      else m.map Prod.fst ++ [k] := by
  by_cases h : (mapLookup m k).isSome
  · rw [mapSet, if_pos h, if_pos h, List.map_map]
    refine List.map_congr_left ?_
    intro p _
    by_cases hp : p.1 = k
    · simp [hp]
    · simp [hp]
  · rw [mapSet, if_neg h, if_neg h]
    simp

lemma mapSet_keys_congr {α β γ : Type} [DecidableEq α]
    (m₁ : List (α × β)) (m₂ : List (α × γ))
    (h : m₁.map Prod.fst = m₂.map Prod.fst) (k : α) (v₁ : β) (v₂ : γ) :
    (mapSet m₁ k v₁).map Prod.fst = (mapSet m₂ k v₂).map Prod.fst := by
  rw [mapSet_map_fst, mapSet_map_fst, h, mapLookup_isSome_congr m₁ m₂ h k]

/-! ### Lemmas about one `drawNotes` loop iteration and the loop itself -/

lemma drawNote_extends (d : NoteDisplay) (note : Note) (gen : ℕ)
    (hb : ∀ p ∈ d.blocks, p.1 < (gen : ℚ)) :
    (∃ b : NoteBlock,
        (d.drawNote note gen).1.blocks = d.blocks ++ [((gen : ℚ), b)]) ∧
      ((∀ p ∈ d.notes, p.1 < (gen : ℚ)) →
        (d.drawNote note gen).1.notes = d.notes ++ [((gen : ℚ), note)]) ∧
      (d.drawNote note gen).2 = gen + 1 := by
  simp only [NoteDisplay.drawNote, NoteBlock.create, NoteBlock.nextId]
  refine ⟨?_, fun hn => ?_, trivial⟩
  · exact ⟨_, mapSet_eq_append _ _ _ (mapLookup_eq_none_of_forall_lt _ _ hb)⟩
  · exact mapSet_eq_append _ _ _ (mapLookup_eq_none_of_forall_lt _ _ hn)

lemma drawNote_keys (d : NoteDisplay) (note : Note) (gen : ℕ)
    (h : d.blocks.map Prod.fst = d.notes.map Prod.fst) :
    (d.drawNote note gen).1.blocks.map Prod.fst
      = (d.drawNote note gen).1.notes.map Prod.fst := by
  simp only [NoteDisplay.drawNote]
  exact mapSet_keys_congr _ _ h _ _ _

lemma drawNoteFold_extends (ns : List Note) :
    ∀ a : NoteDisplay × ℕ,
      (∀ p ∈ a.1.blocks, p.1 < (a.2 : ℚ)) →
      (∀ p ∈ a.1.notes, p.1 < (a.2 : ℚ)) →
      (∃ tb, (ns.foldl (fun p note => p.1.drawNote note p.2) a).1.blocks
          = a.1.blocks ++ tb) ∧
        (∃ tn, (ns.foldl (fun p note => p.1.drawNote note p.2) a).1.notes
          = a.1.notes ++ tn) ∧
        (∀ p ∈ (ns.foldl (fun p note => p.1.drawNote note p.2) a).1.blocks,
          p.1 < (((ns.foldl (fun p note => p.1.drawNote note p.2) a).2 : ℕ) : ℚ)) ∧
        (∀ p ∈ (ns.foldl (fun p note => p.1.drawNote note p.2) a).1.notes,
          p.1 < (((ns.foldl (fun p note => p.1.drawNote note p.2) a).2 : ℕ) : ℚ)) := by
  induction ns with
  | nil =>
    intro a hb hn
    exact ⟨⟨[], by simp⟩, ⟨[], by simp⟩, hb, hn⟩
  | cons n tl ih =>
    intro a hb hn
    obtain ⟨⟨b, hblocks⟩, hnotes, hgen⟩ := drawNote_extends a.1 n a.2 hb
    have hnotes' := hnotes hn
    have hb' : ∀ p ∈ (a.1.drawNote n a.2).1.blocks,
        p.1 < (((a.1.drawNote n a.2).2 : ℕ) : ℚ) := by
      intro p hp
      rw [hgen]
      rw [hblocks] at hp
      rcases List.mem_append.mp hp with hmem | hmem
      · calc p.1 < (a.2 : ℚ) := hb p hmem
          _ < ((a.2 + 1 : ℕ) : ℚ) := by push_cast; linarith
      · rcases List.mem_singleton.mp hmem with rfl
        push_cast
        linarith
    have hn' : ∀ p ∈ (a.1.drawNote n a.2).1.notes,
        p.1 < (((a.1.drawNote n a.2).2 : ℕ) : ℚ) := by
      intro p hp
      rw [hgen]
      rw [hnotes'] at hp
      rcases List.mem_append.mp hp with hmem | hmem
      · calc p.1 < (a.2 : ℚ) := hn p hmem
          _ < ((a.2 + 1 : ℕ) : ℚ) := by push_cast; linarith
      · rcases List.mem_singleton.mp hmem with rfl
        push_cast
        linarith
    obtain ⟨⟨tb, htb⟩, ⟨tn, htn⟩, hinvb, hinvn⟩ :=
      ih (a.1.drawNote n a.2) hb' hn'
    rw [List.foldl_cons]
    refine ⟨⟨((a.2 : ℚ), b) :: tb, ?_⟩, ⟨((a.2 : ℚ), n) :: tn, ?_⟩, hinvb, hinvn⟩
    · rw [htb, hblocks]
      simp
    · rw [htn, hnotes']
      simp

lemma drawNoteFold_keys (ns : List Note) :
    ∀ a : NoteDisplay × ℕ,
      a.1.blocks.map Prod.fst = a.1.notes.map Prod.fst →
      (ns.foldl (fun p note => p.1.drawNote note p.2) a).1.blocks.map Prod.fst
        = (ns.foldl (fun p note => p.1.drawNote note p.2) a).1.notes.map Prod.fst := by
  induction ns with
  | nil => intro a h; simpa using h
  | cons n tl ih =>
    intro a h
    rw [List.foldl_cons]
    exact ih (a.1.drawNote n a.2) (drawNote_keys a.1 n a.2 h)

/-! ### Lemmas about sequential `NoteBlock` construction -/

lemma createAll_ids (argsList : List NoteBlockArgs) :
    ∀ gen : ℕ,
      ((NoteBlock.createAll argsList gen).1.map NoteBlock.id
          = (List.range argsList.length).map (fun i => gen + i)) ∧
        (NoteBlock.createAll argsList gen).2 = gen + argsList.length := by
  induction argsList with
  | nil => intro gen; simp [NoteBlock.createAll]
  | cons a tl ih =>
    intro gen
    obtain ⟨h1, h2⟩ := ih (gen + 1)
    have hrfl : NoteBlock.createAll (a :: tl) gen
        = ((NoteBlock.create a gen).1 :: (NoteBlock.createAll tl (gen + 1)).1,
           (NoteBlock.createAll tl (gen + 1)).2) := rfl
    constructor
    · rw [hrfl]
      simp only [List.map_cons, List.length_cons, NoteBlock.create,
        NoteBlock.nextId, h1, List.range_succ_eq_map, List.map_map,
        List.cons.injEq]
      refine ⟨by omega, ?_⟩
      refine List.map_congr_left ?_
      intro i _
      simp only [Function.comp_apply]
      omega
    · rw [hrfl, h2, List.length_cons]
      omega

/-! ### Lemmas about the scaler's unit filtering -/

lemma outputValuesFor_map_fst (s : LinearScaler) (m : List (String × ℚ)) :
    (s.outputValuesFor m).map Prod.fst
      = (m.filter (fun p => (mapLookup s.units p.1).isSome)).map Prod.fst := by
  induction m with
  | nil => rfl
  | cons p tl ih =>
    cases hp : mapLookup s.units p.1 with
    | none =>
      simp only [LinearScaler.outputValuesFor, List.filterMap_cons, hp] at ih ⊢
      simpa [List.filter_cons, hp] using ih
    | some c =>
      simp only [LinearScaler.outputValuesFor, List.filterMap_cons, hp] at ih ⊢
      simpa [List.filter_cons, hp] using ih

lemma inputValuesFor_map_fst (s : LinearScaler) (m : List (String × ℚ)) :
    (s.inputValuesFor m).map Prod.fst
      = (m.filter (fun p => (mapLookup s.units p.1).isSome)).map Prod.fst := by
  induction m with
  | nil => rfl
  | cons p tl ih =>
    cases hp : mapLookup s.units p.1 with
    | none =>
      simp only [LinearScaler.inputValuesFor, List.filterMap_cons, hp] at ih ⊢
      simpa [List.filter_cons, hp] using ih
    | some c =>
      simp only [LinearScaler.inputValuesFor, List.filterMap_cons, hp] at ih ⊢
      simpa [List.filter_cons, hp] using ih

/-! ### Claim theorems -/

/-- C2: for every unit configured in a `LinearScaler` with nonzero scaling
and every value `v` of that unit, `inputValuesFor (outputValuesFor {unit: v})`
equals `{unit: v}` exactly, over rational arithmetic. -/
theorem scaler_round_trip (s : LinearScaler) (u : String) (c : UnitScaling)
    (v : ℚ) (hu : mapLookup s.units u = some c) (hs : c.scaling ≠ 0) :
    s.inputValuesFor (s.outputValuesFor [(u, v)]) = [(u, v)] := by
  simp only [LinearScaler.outputValuesFor, LinearScaler.inputValuesFor,
    List.filterMap_cons, List.filterMap_nil, hu]
  have : c.zero + c.scaling * v - c.zero = c.scaling * v := by ring
  rw [this, mul_div_cancel_left₀ v hs]

/-- Witness for C2: the display's own beat unit (`zero=40`, `scaling=40`)
round-trips the value 3 through the pixel conversion: `40 + 40*3 = 160`
and `(160-40)/40 = 3`. -/
theorem scaler_round_trip_witness :
    scalerFixture.inputValuesFor (scalerFixture.outputValuesFor [("beat", 3)])
      = [("beat", 3)] :=
  scaler_round_trip scalerFixture "beat" ⟨40, 40⟩ 3 rfl (by norm_num)

/-- C4: both conversions return exactly the units present in the input and
configured in the scaler, in input order; a unit absent from the
configuration is silently dropped, with no error, and a mapping containing
only an unconfigured unit converts to the empty mapping. -/
theorem scaler_filters_units (s : LinearScaler) (m : List (String × ℚ))
    (u : String) (v : ℚ) (hu : mapLookup s.units u = none) :
    ((s.outputValuesFor m).map Prod.fst
        = (m.filter (fun p => (mapLookup s.units p.1).isSome)).map Prod.fst)
      ∧ ((s.inputValuesFor m).map Prod.fst
        = (m.filter (fun p => (mapLookup s.units p.1).isSome)).map Prod.fst)
      ∧ s.outputValuesFor [(u, v)] = []
      ∧ s.inputValuesFor [(u, v)] = [] := by
  refine ⟨outputValuesFor_map_fst s m, inputValuesFor_map_fst s m, ?_, ?_⟩ <;>
    simp [LinearScaler.outputValuesFor, LinearScaler.inputValuesFor, hu]

/-- Witness for C4: on the display's converter, `{unknownUnit: 5}` maps to
the empty mapping in both directions, and a mixed input keeps exactly its
configured units. -/
theorem scaler_filters_units_witness :
    ((scalerFixture.outputValuesFor [("beat", 1), ("bogus", 2)]).map Prod.fst
        = (([("beat", 1), ("bogus", 2)] : List (String × ℚ)).filter
            (fun p => (mapLookup scalerFixture.units p.1).isSome)).map Prod.fst)
      ∧ ((scalerFixture.inputValuesFor [("beat", 1), ("bogus", 2)]).map Prod.fst
        = (([("beat", 1), ("bogus", 2)] : List (String × ℚ)).filter
            (fun p => (mapLookup scalerFixture.units p.1).isSome)).map Prod.fst)
      ∧ scalerFixture.outputValuesFor [("unknownUnit", 5)] = []
      ∧ scalerFixture.inputValuesFor [("unknownUnit", 5)] = [] :=
  scaler_filters_units scalerFixture [("beat", 1), ("bogus", 2)]
    "unknownUnit" 5 rfl

/-- C5: constructing the blocks for a list of argument records starting from
a fresh generator yields the ids `0, 1, ..., N-1` in construction order —
`N` distinct, strictly increasing integers starting at 0 — and from any
generator state `gen` the ids are `gen, ..., gen+N-1` with the state left at
`gen+N`, so ids are never reset and never reused. -/
theorem noteBlock_id_sequence (argsList : List NoteBlockArgs) :
    ((NoteBlock.createAll argsList 0).1.map NoteBlock.id
        = List.range argsList.length)
      ∧ ((NoteBlock.createAll argsList 0).1.map NoteBlock.id).Nodup
      ∧ List.Chain' (· < ·) ((NoteBlock.createAll argsList 0).1.map NoteBlock.id)
      ∧ ∀ gen : ℕ,
          ((NoteBlock.createAll argsList gen).1.map NoteBlock.id
              = (List.range argsList.length).map (fun i => gen + i))
            ∧ (NoteBlock.createAll argsList gen).2 = gen + argsList.length := by
  have h0 : (NoteBlock.createAll argsList 0).1.map NoteBlock.id
      = List.range argsList.length := by
    rw [(createAll_ids argsList 0).1]
    simp
  refine ⟨h0, ?_, ?_, createAll_ids argsList⟩
  · rw [h0]
    exact List.nodup_range _
  · rw [h0]
    exact (List.pairwise_lt_range argsList.length).chain'

/-- C6: the `xSize` and `ySize` constructor parameters have no influence on
the converter: for any two parameter choices the converters are equal and
behave identically on every input, and the beat and pitch mappings are
hard-coded to `zero=40, scaling=40` and `zero=400, scaling=-20`. -/
theorem converter_ignores_sizes (seq : NoteSequence) (x y x' y' : ℚ)
    (m : List (String × ℚ)) :
    ((NoteDisplay.create seq x y).converter
        = (NoteDisplay.create seq x' y').converter)
      ∧ ((NoteDisplay.create seq x y).converter.outputValuesFor m
        = (NoteDisplay.create seq x' y').converter.outputValuesFor m)
      ∧ ((NoteDisplay.create seq x y).converter.inputValuesFor m
        = (NoteDisplay.create seq x' y').converter.inputValuesFor m)
      ∧ mapLookup (NoteDisplay.create seq x y).converter.units "beat"
        = some ⟨40, 40⟩
      ∧ mapLookup (NoteDisplay.create seq x y).converter.units "pitch"
        = some ⟨400, -20⟩ :=
  ⟨rfl, rfl, rfl, rfl, rfl⟩

/-- C7: `drawNotes` never removes or replaces existing entries of the
`blocks` and `notes` maps: when every existing key is below the current id
counter (as holds in every real execution, since every key was drawn from
the counter), each map after the call is the old map with new entries
appended, so every prior key-value pair is still present unchanged and
repeated calls accumulate entries. -/
theorem drawNotes_accumulates (d : NoteDisplay) (gen : ℕ)
    (hb : ∀ p ∈ d.blocks, p.1 < (gen : ℚ))
    (hn : ∀ p ∈ d.notes, p.1 < (gen : ℚ)) :
    (∃ tb, (d.drawNotes gen).1.blocks = d.blocks ++ tb)
      ∧ (∃ tn, (d.drawNotes gen).1.notes = d.notes ++ tn) := by
  have h := drawNoteFold_extends (d.sequence.getNotes 0 8) (d, gen) hb hn
  exact ⟨h.1, h.2.1⟩

/-- Witness for C7: a display that already holds an entry under id 0 keeps
that entry (the old maps are a prefix) when `drawNotes` runs with the id
counter at 1. -/
theorem drawNotes_accumulates_witness :
    (∃ tb, (displayFixture.drawNotes 1).1.blocks = displayFixture.blocks ++ tb)
      ∧ (∃ tn, (displayFixture.drawNotes 1).1.notes
          = displayFixture.notes ++ tn) :=
  drawNotes_accumulates displayFixture 1
    (by
      intro p hp
      simp only [displayFixture] at hp
      rcases List.mem_singleton.mp hp with rfl
      norm_num)
    (by
      intro p hp
      simp only [displayFixture] at hp
      rcases List.mem_singleton.mp hp with rfl
      norm_num)

/-- C9: the `blocks` and `notes` maps always have the same key list: the
constructor creates both empty, `drawNotes` preserves equality of the key
lists (it inserts into both under the same block id), and `dropListener`
leaves both maps unchanged. -/
theorem blocks_notes_same_keys (seq : NoteSequence) (x y : ℚ)
    (d : NoteDisplay) (gen : ℕ) (e : DropEvent) :
    ((NoteDisplay.create seq x y).blocks.map Prod.fst
        = (NoteDisplay.create seq x y).notes.map Prod.fst)
      ∧ (d.blocks.map Prod.fst = d.notes.map Prod.fst →
          (d.drawNotes gen).1.blocks.map Prod.fst
            = (d.drawNotes gen).1.notes.map Prod.fst)
      ∧ (d.dropListener e).1.blocks = d.blocks
      ∧ (d.dropListener e).1.notes = d.notes :=
  ⟨rfl, fun h => drawNoteFold_keys (d.sequence.getNotes 0 8) (d, gen) h,
   rfl, rfl⟩

/-- Witness for C9: rendering on a display whose two maps agree on the key 0
leaves the key lists equal. -/
theorem blocks_notes_same_keys_witness :
    (displayFixture.drawNotes 0).1.blocks.map Prod.fst
      = (displayFixture.drawNotes 0).1.notes.map Prod.fst :=
  (blocks_notes_same_keys (constSequence []) 40 20 displayFixture 0
    ⟨"", 0⟩).2.1 rfl

/-- C1 counterexample: rendering the note `start=0, length=2, number=60`
produces a block with `width=80`, `height=20`, `left=40` but `top=-800`
(the start-position pitch), not `top=-820` as the claim states: the code
assigns `top: startPosition.pitch` and never takes the lesser of the two
pitch outputs. -/
theorem drawNotes_c1_top_refuted :
    displayC1.blocks
        = [((0 : ℚ), ⟨0, some (-800), some 40, some 20, some 80, "px"⟩)]
      ∧ (some (-800 : ℚ) : Option ℚ) ≠ some (-820 : ℚ) := by
  constructor
  · simp [displayC1, NoteDisplay.drawNotes, NoteDisplay.create, constSequence,
      NoteDisplay.drawNote, NoteBlock.create, NoteBlock.nextId,
      NoteBlock.displayOn, LinearScaler.outputValuesFor, mapLookup, mapSet,
      jsAbs, jsSub, noteC1]
    norm_num
  · simp only [ne_eq, Option.some.injEq]
    norm_num

/-- C1 (amended): for the note `start=0, length=2, number=60` rendered by
`drawNotes` with the hard-coded converter, the created block has `width=80`,
`height=20`, `left=40` and `top=-800`, where top is the start-position pitch
output — the greater of the two pitch outputs `-800` and `-820`, since the
pitch scaling is negative. -/
theorem drawNotes_c1_geometry :
    mapLookup displayC1.blocks 0
      = some ⟨0, some (-800), some 40, some 20, some 80, "px"⟩ := by
  simp [displayC1, NoteDisplay.drawNotes, NoteDisplay.create, constSequence,
    NoteDisplay.drawNote, NoteBlock.create, NoteBlock.nextId,
    NoteBlock.displayOn, LinearScaler.outputValuesFor, mapLookup, mapSet,
    jsAbs, jsSub, noteC1]
  norm_num

/-- C3: after rendering three notes on a fresh display (ids 0, 1, 2), a drop
event whose payload carries the second block's id and whose horizontal pixel
coordinate is 200 causes exactly one `moveNote` call, passing the note
recorded for that block id and `newStart = (200-40)/40 = 4` via the inverse
beat conversion. -/
theorem drop_moves_second_note (n1 n2 n3 : Note) (e : DropEvent)
    (hdata : e.noteIdData = "1") (hx : e.clientX = 200) :
    ((((NoteDisplay.create (constSequence [n1, n2, n3]) 40 20).drawNotes
        0).1).dropListener e).2 = [⟨some n2, some 4⟩] := by
  obtain ⟨data, x⟩ := e
  dsimp only at hdata hx
  subst hdata
  subst hx
  have hparse : jsStringToNumber "1" = some 1 := rfl
  simp [NoteDisplay.dropListener, hparse, NoteDisplay.drawNotes,
    NoteDisplay.create, constSequence, NoteDisplay.drawNote, NoteBlock.create,
    NoteBlock.nextId, NoteBlock.displayOn, LinearScaler.outputValuesFor,
    LinearScaler.inputValuesFor, mapLookup, mapSet, jsAbs, jsSub]
  norm_num

/-- Witness for C3: three concrete notes at beats 0, 2 and 4; dropping
payload "1" at pixel 200 moves the second note to beat 4. -/
theorem drop_moves_second_note_witness :
    ((((NoteDisplay.create (constSequence [noteA, noteB, noteC]) 40
        20).drawNotes 0).1).dropListener ⟨"1", 200⟩).2
      = [⟨some noteB, some 4⟩] :=
  drop_moves_second_note noteA noteB noteC ⟨"1", 200⟩ rfl rfl

/-- C8: when the parsed drop payload id is not a key of the `notes` map,
`dropListener` still makes exactly one `moveNote` call, passing an absent
(`undefined`) note reference together with the computed `newStart`; no
guard prevents the call and no error is raised. -/
theorem drop_unknown_id_still_calls (d : NoteDisplay) (e : DropEvent) (q : ℚ)
    (hparse : jsStringToNumber e.noteIdData = some q)
    (habs : mapLookup d.notes q = none) :
    (d.dropListener e).2
      = [⟨none, mapLookup (d.converter.inputValuesFor
          [("beat", e.clientX)]) "beat"⟩] := by
  simp [NoteDisplay.dropListener, hparse, habs]

/-- Witness for C8: dropping payload "7" on a freshly constructed display
(whose `notes` map is empty) still produces one `moveNote` call with an
absent note. -/
theorem drop_unknown_id_still_calls_witness :
    ((NoteDisplay.create (constSequence []) 40 20).dropListener ⟨"7", 123⟩).2
      = [⟨none, mapLookup ((NoteDisplay.create (constSequence [])
          40 20).converter.inputValuesFor [("beat", 123)]) "beat"⟩] :=
  drop_unknown_id_still_calls (NoteDisplay.create (constSequence []) 40 20)
    ⟨"7", 123⟩ 7 rfl rfl

/-- C10: an empty `application/note-id` payload coerces to the number 0, so
`dropListener` looks up block id 0; when a note is recorded under id 0 that
note is passed to `moveNote`, and the call is indistinguishable from a
legitimate drag of a block with id 0 (whose drag payload is "0"). -/
theorem drop_empty_payload_reads_block_zero (d : NoteDisplay) (x : ℚ)
    (note : Note) (b : NoteBlock) (hnote : mapLookup d.notes 0 = some note)
    (hb : b.id = 0) :
    ((d.dropListener ⟨"", x⟩).2
        = [⟨some note, mapLookup (d.converter.inputValuesFor
            [("beat", x)]) "beat"⟩])
      ∧ d.dropListener ⟨"", x⟩ = d.dropListener ⟨(b.dragListener).2, x⟩ := by
  have h0 : jsStringToNumber "" = some 0 := rfl
  have hpayload : (b.dragListener).2 = "0" := by
    simp only [NoteBlock.dragListener, hb]
    rfl
  have h00 : jsStringToNumber "0" = some 0 := rfl
  constructor
  · simp [NoteDisplay.dropListener, h0, hnote]
  · rw [hpayload]
    simp [NoteDisplay.dropListener, h0, h00]

/-- Witness for C10: on a display holding `noteC1` under id 0, an empty
payload drop at pixel 200 passes `noteC1` to `moveNote`, exactly as a drag
of the id-0 block would. -/
theorem drop_empty_payload_reads_block_zero_witness :
    ((displayFixture.dropListener ⟨"", 200⟩).2
        = [⟨some noteC1, mapLookup (displayFixture.converter.inputValuesFor
            [("beat", 200)]) "beat"⟩])
      ∧ displayFixture.dropListener ⟨"", 200⟩
        = displayFixture.dropListener ⟨(blockFixture.dragListener).2, 200⟩ :=
  drop_empty_payload_reads_block_zero displayFixture 200 noteC1 blockFixture
    rfl rfl
